import Mathlib

/-!
Shallow embedding of the core of srcnDev/message-service: the interval
scheduler (pkg/scheduler/scheduler.go), the batch message dispatcher
(internal/service message sender, latest revision: leave-Pending on
transport failure plus the Redis write-through cache), the message cache
repository (CacheSentMessage) and the message service (Create / SetSent /
SetFailed / Update).  External collaborators (store, webhook transport,
Redis, json marshalling, the clock) are modelled as oracles supplied in an
environment record; the effects the code issues against them are recorded
as an explicit trace.
-/

namespace MessageService


/-- An opaque collaborator error (`error` values returned by the store,
the transport, Redis, ...; the core only distinguishes success/failure). -/
structure GoError where
  tag : Nat
deriving DecidableEq, Repr

instance {ε α : Type} [DecidableEq ε] [DecidableEq α] :
    DecidableEq (Except ε α) := fun x y =>
  match x, y with
  | .error a, .error b =>
    if h : a = b then .isTrue (by rw [h]) else .isFalse (by intro hc; cases hc; exact h rfl)
  | .error _, .ok _ => .isFalse (by intro hc; cases hc)
  | .ok _, .error _ => .isFalse (by intro hc; cases hc)
  | .ok a, .ok b =>
    if h : a = b then .isTrue (by rw [h]) else .isFalse (by intro hc; cases hc; exact h rfl)

/-- pkg/customerror CustomError: structured application error. -/
structure CustomError where
  code : String
  message : String
  statusCode : Option Nat
  err : Option GoError
deriving DecidableEq, Repr

/-- CustomError.WithError: wrap an underlying error. -/
def CustomError.withError (e : CustomError) (underlying : GoError) : CustomError :=
  { e with err := some underlying }

/-- customerror.New / NewCustomError: code, message, explicit status. -/
def CustomError.new (code message : String) (statusCode : Nat) : CustomError :=
  { code := code, message := message, statusCode := some statusCode, err := none }

/-! Predefined errors of internal/apperror and internal/messagesender. -/

def ErrMessageNotFound : CustomError :=
  CustomError.new "MESSAGE_NOT_FOUND" "Message not found" 404

def ErrMessageCreateFailed : CustomError :=
  CustomError.new "MESSAGE_CREATE_FAILED" "Failed to create message" 500

def ErrMessageUpdateFailed : CustomError :=
  CustomError.new "MESSAGE_UPDATE_FAILED" "Failed to update message" 500

def ErrMessageListFailed : CustomError :=
  CustomError.new "MESSAGE_LIST_FAILED" "Failed to list messages" 500

def ErrMessageSendFailed : CustomError :=
  CustomError.new "MESSAGE_SEND_FAILED" "Failed to send message" 500

def ErrWebhookCallFailed : CustomError :=
  CustomError.new "WEBHOOK_CALL_FAILED" "Webhook call failed" 502

def ErrMarkSentFailed : CustomError :=
  CustomError.new "MARK_SENT_FAILED" "Failed to mark message as sent" 500

/-! Domain model (internal/domain). -/

/-- domain.MessageStatus; the Failed status appears in the revision used by
messageService.SetFailed. -/
inductive MessageStatus where
  | pending
  | sent
  | failed
deriving DecidableEq, Repr

/-- domain.Message.  Time instants are modelled as naturals (nanoseconds);
nullable columns are Options. -/
structure Message where
  id : Nat
  phoneNumber : String
  content : String
  status : MessageStatus
  messageID : Option String
  sentAt : Option Nat
deriving DecidableEq, Repr

/-- webhook.SendMessageRequest. -/
structure SendMessageRequest where
  «to» : String
  content : String
deriving DecidableEq, Repr

/-- webhook.SendMessageResponse. -/
structure SendMessageResponse where
  message : String
  messageID : String
deriving DecidableEq, Repr

/-- repository.CachedMessage: the value marshalled into Redis. -/
structure CachedMessage where
  messageID : String
  sentAt : Nat
deriving DecidableEq, Repr

/-- Calls the dispatcher issues against its collaborators, recorded as a
trace.  setFailedCall is issued only by the superseded revision of
sendMessage; the embedded (latest) revision never emits it. -/
inductive Effect where
  | webhookCall (req : SendMessageRequest)
  | setSentCall (id : Nat) (messageID : String)
  | setFailedCall (id : Nat)
  | redisSetCall (key : String) (value : String) (ttl : Nat)
deriving DecidableEq, Repr

/-- Collaborator oracles for one SendPendingMessages cycle.  Each oracle
fixes the outcome of the corresponding external call; per-item calls are
keyed by the message id (each item is processed once per cycle). -/
structure SenderEnv where
  getPending : Except GoError (List Message)
  webhook : Nat → SendMessageRequest → Except GoError SendMessageResponse
  setSent : Nat → String → Except GoError Unit
  marshal : CachedMessage → Except GoError String
  redisSet : String → String → Nat → Except GoError Unit
  now : Nat
  cacheEnabled : Bool
  cacheRepoPresent : Bool

/-- 30 * 24 * time.Hour, in nanoseconds (the TTL used by
CacheSentMessage). -/
def ttl30Days : Nat := 30 * 24 * 60 * 60 * 1000000000

/-- messageCacheRepository.CacheSentMessage: marshal the CachedMessage,
then redis.Set under key "message:" ++ messageID with the 30-day TTL.
Returns the call's result together with the Redis calls issued. -/
def CacheSentMessage (env : SenderEnv) (messageID : String) (sentAt : Nat) :
    Except GoError Unit × List Effect :=
  match env.marshal { messageID := messageID, sentAt := sentAt } with
  | .error e => (.error e, [])
  | .ok data =>
    let key := "message:" ++ messageID
    let expiration := ttl30Days
    (env.redisSet key data expiration, [.redisSetCall key data expiration])

/-- The webhook request built by sendMessage from one item. -/
def sendMessageRequestOf (msg : Message) : SendMessageRequest :=
  { «to» := msg.phoneNumber, content := msg.content }

/-- messageSenderService.sendMessage (latest revision): webhook call; on
transport failure leave the item pending (no store write) and return the
wrapped webhook error; on success mark sent, then — when the cache is
enabled and a cache repository is configured — best-effort cache the sent
message (the cache result is only logged). -/
def sendMessage (env : SenderEnv) (msg : Message) :
    Except CustomError Unit × List Effect :=
  let req := sendMessageRequestOf msg
  match env.webhook msg.id req with
  | .error e =>
    (.error (ErrWebhookCallFailed.withError e), [.webhookCall req])
  | .ok resp =>
    match env.setSent msg.id resp.messageID with
    | .error e =>
      (.error (ErrMarkSentFailed.withError e),
        [.webhookCall req, .setSentCall msg.id resp.messageID])
    | .ok _ =>
      let cacheEffects :=
        if env.cacheEnabled && env.cacheRepoPresent then
          (CacheSentMessage env resp.messageID env.now).2
        else []
      (.ok (), [.webhookCall req, .setSentCall msg.id resp.messageID] ++ cacheEffects)

/-- The per-item loop of SendPendingMessages: collect the errors of the
failed items (in order) and the concatenated effect trace; a failed item
never stops the loop. -/
def processMessages (env : SenderEnv) : List Message → List CustomError × List Effect
  | [] => ([], [])
  | msg :: rest =>
    let r := sendMessage env msg
    let tail := processMessages env rest
    match r.1 with
    | .error e => (e :: tail.1, r.2 ++ tail.2)
    | .ok _ => (tail.1, r.2 ++ tail.2)

/-- messageSenderService.SendPendingMessages (latest revision): fetch the
pending batch (a store error is wrapped as ErrMessageListFailed); an empty
batch is a no-op success; otherwise process every item and return the
aggregate ErrMessageSendFailed exactly when sendErrors is non-empty and as
long as the batch. -/
def SendPendingMessages (env : SenderEnv) : Except CustomError Unit × List Effect :=
  match env.getPending with
  | .error e => (.error (ErrMessageListFailed.withError e), [])
  | .ok messages =>
    if messages.length = 0 then (.ok (), [])
    else
      let res := processMessages env messages
      if 0 < res.1.length ∧ res.1.length = messages.length then
        (.error ErrMessageSendFailed, res.2)
      else
        (.ok (), res.2)

/-! Message service (internal/service/message_service.go). -/

/-- A message repository error as the service distinguishes it:
gorm.ErrRecordNotFound versus any other error. -/
inductive RepoErr where
  | recordNotFound
  | other (e : GoError)
deriving DecidableEq, Repr

/-- dto.CreateMessageRequest (validated payload fields). -/
structure CreateMessageRequest where
  phoneNumber : String
  content : String
deriving DecidableEq, Repr

/-- dto.UpdateMessageRequest: only provided (some) fields are updated. -/
structure UpdateMessageRequest where
  phoneNumber : Option String
  content : Option String
  status : Option MessageStatus
deriving DecidableEq, Repr

/-- Oracles for the message repository and the clock, for one service
call.  repoCreate returns the key the store assigns to the new row. -/
structure MsgEnv where
  getByID : Nat → Except RepoErr Message
  repoCreate : Message → Except GoError Nat
  repoUpdate : Message → Except GoError Unit
  now : Nat

/-- messageService.Create: build a Pending message from the request (all
other columns zero-valued), insert it, return it. -/
def Create (env : MsgEnv) (req : CreateMessageRequest) : Except CustomError Message :=
  let message : Message :=
    { id := 0, phoneNumber := req.phoneNumber, content := req.content,
      status := .pending, messageID := none, sentAt := none }
  match env.repoCreate message with
  | .error e => .error (ErrMessageCreateFailed.withError e)
  | .ok assignedId => .ok { message with id := assignedId }

/-- messageService.SetSent: load the message, set status Sent together
with the webhook message id and the current time, and persist it.  The
second component is the row passed to repo.Update (none when the load
already failed). -/
def SetSent (env : MsgEnv) (id : Nat) (messageID : String) :
    Except CustomError Unit × Option Message :=
  match env.getByID id with
  | .error .recordNotFound => (.error ErrMessageNotFound, none)
  | .error (.other e) => (.error (ErrMessageUpdateFailed.withError e), none)
  | .ok message =>
    let message :=
      { message with
        status := .sent
        messageID := some messageID
        sentAt := some env.now }
    match env.repoUpdate message with
    | .error e => (.error (ErrMessageUpdateFailed.withError e), some message)
    | .ok _ => (.ok (), some message)

/-- messageService.SetFailed: load the message, set status Failed (the
other columns are left as loaded), persist it. -/
def SetFailed (env : MsgEnv) (id : Nat) :
    Except CustomError Unit × Option Message :=
  match env.getByID id with
  | .error .recordNotFound => (.error ErrMessageNotFound, none)
  | .error (.other e) => (.error (ErrMessageUpdateFailed.withError e), none)
  | .ok message =>
    let message := { message with status := .failed }
    match env.repoUpdate message with
    | .error e => (.error (ErrMessageUpdateFailed.withError e), some message)
    | .ok _ => (.ok (), some message)

/-- messageService.Update: load the message, overwrite exactly the fields
provided in the request, persist and return it.  The second component is
the row passed to repo.Update. -/
def Update (env : MsgEnv) (id : Nat) (req : UpdateMessageRequest) :
    Except CustomError Message × Option Message :=
  match env.getByID id with
  | .error .recordNotFound => (.error ErrMessageNotFound, none)
  | .error (.other e) => (.error (ErrMessageUpdateFailed.withError e), none)
  | .ok message =>
    let message :=
      match req.phoneNumber with
      | some p => { message with phoneNumber := p }
      | none => message
    let message :=
      match req.content with
      | some c => { message with content := c }
      | none => message
    let message :=
      match req.status with
      | some st => { message with status := st }
      | none => message
    match env.repoUpdate message with
    | .error e => (.error (ErrMessageUpdateFailed.withError e), some message)
    | .ok _ => (.ok message, some message)

/-- The spec's message invariant: a non-null external identifier and sent
timestamp exist if and only if status = Sent. -/
def messageInv (m : Message) : Prop :=
  (m.messageID ≠ none ∧ m.sentAt ≠ none) ↔ m.status = .sent

instance (m : Message) : Decidable (messageInv m) := by
  unfold messageInv
  infer_instance

/-! Scheduler (pkg/scheduler/scheduler.go). -/

def ErrInvalidInterval : CustomError :=
  CustomError.new "SCHEDULER_INVALID_INTERVAL" "Interval must be positive" 400

def ErrNilJob : CustomError :=
  CustomError.new "SCHEDULER_NIL_JOB" "Job cannot be nil" 400

def ErrAlreadyRunning : CustomError :=
  CustomError.new "SCHEDULER_ALREADY_RUNNING" "Scheduler already running" 409

def ErrNotRunning : CustomError :=
  CustomError.new "SCHEDULER_NOT_RUNNING" "Scheduler not running" 409

/-- The mutexed scheduler state: the bound job (modelled by presence), the
interval (time.Duration, int64 nanoseconds), the running flag, whether the
ticker is armed, and whether the internal context has been cancelled. -/
structure SchedulerState where
  jobPresent : Bool
  interval : Int
  running : Bool
  tickerArmed : Bool
  cancelIssued : Bool
deriving DecidableEq, Repr

/-- scheduler.New: interval must be positive (checked first), the job must
be non-nil; on success the zero-valued scheduler is not running. -/
def New (jobPresent : Bool) (interval : Int) : Except CustomError SchedulerState :=
  if interval ≤ 0 then .error ErrInvalidInterval
  else if jobPresent = false then .error ErrNilJob
  else .ok { jobPresent := jobPresent, interval := interval,
             running := false, tickerArmed := false, cancelIssued := false }

/-- scheduler.Start: under the mutex, fail if already running; otherwise
create the internal cancellable context, arm the ticker, mark running and
launch the run loop.  Returns the result together with the state left
behind. -/
def Start (s : SchedulerState) : Except CustomError Unit × SchedulerState :=
  if s.running then (.error ErrAlreadyRunning, s)
  else (.ok (), { s with running := true, tickerArmed := true, cancelIssued := false })

/-- Which of the three select cases resolves Stop's wait first: the loop
closed stoppedCh, the caller's context was cancelled (carrying ctx.Err()),
or the fixed 5-second timer fired. -/
inductive StopWait where
  | loopStopped
  | callerCanceled (e : GoError)
  | timeout
deriving DecidableEq, Repr

/-- An error returned by Stop: the lifecycle error ErrNotRunning, or the
caller context's cancellation error. -/
inductive StopError where
  | lifecycle (e : CustomError)
  | context (e : GoError)
deriving DecidableEq, Repr

/-- scheduler.Stop: under the mutex, fail if not running; otherwise cancel
the internal context and stop the ticker, then wait.  On the stoppedCh and
timeout branches the running flag is cleared and nil returned; on the
caller-cancellation branch ctx.Err() is returned immediately, before the
running flag is touched. -/
def Stop (s : SchedulerState) (w : StopWait) : Except StopError Unit × SchedulerState :=
  if ¬ s.running then (.error (.lifecycle ErrNotRunning), s)
  else
    let s1 := { s with cancelIssued := true, tickerArmed := false }
    match w with
    | .loopStopped => (.ok (), { s1 with running := false })
    | .callerCanceled e => (.error (.context e), s1)
    | .timeout => (.ok (), { s1 with running := false })

/-! The run loop (scheduler.run / scheduler.executeJob).  A run of the
loop is driven by the sequence of resolved selects: each iteration's
select resolves to a ticker tick or to the internal-context cancellation.
The outcome of the n-th job invocation is given by an oracle. -/

/-- How one job invocation behaves: returns nil, returns an error, or
raises a runtime fault carrying a value. -/
inductive JobOutcome where
  | ok
  | fails (e : GoError)
  | panics (v : Nat)
deriving DecidableEq, Repr

/-- The bare call s.job(ctx): a fault propagates out of the call. -/
def jobCall (o : JobOutcome) : Except Nat (Option GoError) :=
  match o with
  | .ok => .ok none
  | .fails e => .ok (some e)
  | .panics v => .error v

/-- scheduler.executeJob: the call is wrapped in the deferred recover
boundary; a recovered fault is logged, a returned error is logged; either
way executeJob returns normally (a propagated fault would be a .error). -/
def executeJob (o : JobOutcome) : Except Nat Unit :=
  match jobCall o with
  | .error _ => .ok ()
  | .ok _ => .ok ()

/-- One resolved select of the run loop. -/
inductive LoopEvent where
  | tick
  | done
deriving DecidableEq, Repr

/-- Result of a run of the loop: how many job invocations happened,
whether run returned (cancellation observed), and whether the deferred
close(stoppedCh) has executed (exactly on return). -/
structure RunResult where
  invocations : Nat
  finished : Bool
  stoppedClosed : Bool
deriving DecidableEq, Repr

/-- The for-select part of scheduler.run: a tick invokes the job once
through executeJob, cancellation exits the loop; an exhausted event list
leaves the loop blocked in its select.  n counts invocations so far. -/
def runLoop (job : Nat → JobOutcome) (n : Nat) :
    List LoopEvent → Except Nat (Nat × Bool)
  | [] => .ok (n, false)
  | .tick :: rest =>
    match executeJob (job n) with
    | .error v => .error v
    | .ok _ => runLoop job (n + 1) rest
  | .done :: _ => .ok (n, true)

/-- scheduler.run: invoke the job once immediately on entry, then run the
for-select loop; the deferred close(stoppedCh) executes exactly when run
returns.  A .error result would be a fault escaping the loop. -/
def run (job : Nat → JobOutcome) (events : List LoopEvent) : Except Nat RunResult :=
  match executeJob (job 0) with
  | .error v => .error v
  | .ok _ =>
    match runLoop job 1 events with
    | .error v => .error v
    | .ok (n, fin) => .ok { invocations := n, finished := fin, stoppedClosed := fin }

/-- Number of ticks the loop serves before the first cancellation. -/
def ticksBeforeDone : List LoopEvent → Nat
  | [] => 0
  | .tick :: rest => ticksBeforeDone rest + 1
  | .done :: _ => 0

/-- Whether the event sequence contains the internal cancellation. -/
def hasDone : List LoopEvent → Bool
  | [] => false
  | .tick :: rest => hasDone rest
  | .done :: _ => true

/-- A Stop call seen together with the loop behaviour after Stop's wait
resolves: postEvents are the loop's remaining resolved selects. -/
structure StopScenario where
  state : SchedulerState
  wait : StopWait
  postEvents : List LoopEvent
deriving Repr

/-- Well-formedness of a StopScenario against the real system: the
stoppedCh branch resolves only after run has returned, so no loop events
remain; and since Stop stopped the ticker before waiting, at most one
buffered tick can still be served afterwards. -/
def StopScenario.wf (sc : StopScenario) : Prop :=
  (sc.wait = .loopStopped → sc.postEvents = []) ∧
  ticksBeforeDone sc.postEvents ≤ 1

instance (sc : StopScenario) : Decidable sc.wf := by
  unfold StopScenario.wf
  infer_instance

/-- Job invocations occurring after Stop's wait has resolved. -/
def invocationsAfterStop (sc : StopScenario) : Nat :=
  ticksBeforeDone sc.postEvents

/-! Concrete sample data for witnesses and counterexamples. -/

/-- A pending message as created by the service. -/
def msgA : Message :=
  { id := 1, phoneNumber := "+905551111111", content := "Hello",
    status := .pending, messageID := none, sentAt := none }

/-- A second pending message. -/
def msgB : Message :=
  { id := 2, phoneNumber := "+905552222222", content := "World",
    status := .pending, messageID := none, sentAt := none }

/-- A baseline environment: empty batch, failing transport, succeeding
store and cache collaborators, cache disabled. -/
def envBase : SenderEnv :=
  { getPending := .ok []
    webhook := fun _ _ => .error ⟨0⟩
    setSent := fun _ _ => .ok ()
    marshal := fun c => .ok (c.messageID)
    redisSet := fun _ _ _ => .ok ()
    now := 1700000000
    cacheEnabled := false
    cacheRepoPresent := false }

def envFetchFails : SenderEnv := { envBase with getPending := .error ⟨7⟩ }

def envAllFail : SenderEnv := { envBase with getPending := .ok [msgA] }

/-- Environment for the C2 witness: two pending items, the transport fails
for the first and succeeds for the second. -/
def envFirstFails : SenderEnv :=
  { envBase with
    getPending := .ok [msgA, msgB]
    webhook := fun i _ =>
      if i = 1 then .error ⟨3⟩
      else .ok { message := "Accepted", messageID := "uuid-b" } }

/-- Environment for the C9 witness: one pending item, transport and store
succeed, caching enabled. -/
def envCacheOk : SenderEnv :=
  { envBase with
    getPending := .ok [msgA]
    webhook := fun _ _ => .ok { message := "Accepted", messageID := "uuid-a" }
    cacheEnabled := true
    cacheRepoPresent := true }

/-- Environment for the C10 witness: transport succeeds, SetSent fails,
caching enabled. -/
def envMarkFails : SenderEnv :=
  { envBase with
    getPending := .ok [msgA]
    webhook := fun _ _ => .ok { message := "Accepted", messageID := "uuid-a" }
    setSent := fun _ _ => .error ⟨9⟩
    cacheEnabled := true
    cacheRepoPresent := true }

/-! C8: the message invariant against Create / SetSent / Update. -/

/-- Repository oracle for the C8 theorems: id lookups resolve to the
pending msgA (null MessageID and SentAt); inserts and updates succeed. -/
def c8Env : MsgEnv :=
  { getByID := fun _ => .ok msgA
    repoCreate := fun _ => .ok 1
    repoUpdate := fun _ => .ok ()
    now := 1700000000 }

/-- An update request that only changes the status, to Sent. -/
def c8Req : UpdateMessageRequest :=
  { phoneNumber := none, content := none, status := some .sent }

/-- A job that faults on its second invocation. -/
def panickyJob : Nat → JobOutcome := fun n => if n = 1 then .panics 7 else .ok

/-- A concrete running scheduler state. -/
def runningState : SchedulerState :=
  { jobPresent := true, interval := 1, running := true,
    tickerArmed := true, cancelIssued := false }

/-- The Stop scenario exhibiting the timeout race: the wait times out
while the loop still has a buffered tick to serve before it observes the
cancellation. -/
def c6Timeout : StopScenario :=
  { state := runningState, wait := .timeout, postEvents := [.tick, .done] }

/-- The loop-completion Stop scenario for the C6 witness. -/
def c6Stopped : StopScenario :=
  { state := runningState, wait := .loopStopped, postEvents := [] }

/-! Lemmas about the dispatcher loop. -/

theorem processMessages_errors_length_le (env : SenderEnv) (l : List Message) :
    (processMessages env l).1.length ≤ l.length := by
  induction l with
  | nil => simp [processMessages]
  | cons m rest ih =>
    simp only [processMessages]
    cases h : (sendMessage env m).1 <;> simp [h] <;> omega

theorem processMessages_errors_length_eq_iff (env : SenderEnv) (l : List Message) :
    (processMessages env l).1.length = l.length ↔
      ∀ m ∈ l, (sendMessage env m).1 ≠ .ok () := by
  induction l with
  | nil => simp [processMessages]
  | cons m rest ih =>
    simp only [processMessages]
    cases h : (sendMessage env m).1 with
    | error e =>
      have hne : (sendMessage env m).1 ≠ .ok () := by simp [h]
      simp [h, hne, ih]
    | ok u =>
      have hle := processMessages_errors_length_le env rest
      cases u
      simp [h]
      intro heq
      exact absurd heq (by omega)

theorem processMessages_exists_ok_iff (env : SenderEnv) (l : List Message) :
    (processMessages env l).1.length < l.length ↔
      ∃ m ∈ l, (sendMessage env m).1 = .ok () := by
  have hle := processMessages_errors_length_le env l
  have heq := processMessages_errors_length_eq_iff env l
  constructor
  · intro hlt
    by_contra hno
    push_neg at hno
    have : (processMessages env l).1.length = l.length := heq.mpr hno
    omega
  · intro ⟨m, hm, hok⟩
    rcases Nat.lt_or_ge (processMessages env l).1.length l.length with h | h
    · exact h
    · have : (processMessages env l).1.length = l.length := le_antisymm hle h
      exact absurd hok (heq.mp this m hm)

theorem processMessages_error_mem (env : SenderEnv) {l : List Message}
    {m : Message} {e : CustomError} (hm : m ∈ l)
    (he : (sendMessage env m).1 = .error e) :
    e ∈ (processMessages env l).1 := by
  induction l with
  | nil => cases hm
  | cons m' rest ih =>
    simp only [processMessages]
    rcases List.mem_cons.mp hm with rfl | hmem
    · simp [he]
    · cases h : (sendMessage env m').1 <;> simp [h, ih hmem]

theorem processMessages_effects_mem (env : SenderEnv) (l : List Message)
    (eff : Effect) :
    eff ∈ (processMessages env l).2 ↔ ∃ m ∈ l, eff ∈ (sendMessage env m).2 := by
  induction l with
  | nil => simp [processMessages]
  | cons m rest ih =>
    simp only [processMessages]
    cases h : (sendMessage env m).1 <;> simp [h, List.mem_append, ih]

theorem SendPendingMessages_effects (env : SenderEnv) {msgs : List Message}
    (hget : env.getPending = .ok msgs) (hne : msgs ≠ []) :
    (SendPendingMessages env).2 = (processMessages env msgs).2 := by
  have hlen : msgs.length ≠ 0 := by
    simpa [List.length_eq_zero] using hne
  simp only [SendPendingMessages, hget]
  rw [if_neg hlen]
  split <;> rfl

/-- C1: SendPendingMessages returns the wrapped listing failure when the
fetch fails; success with no effects (hence no transport call) on an empty
batch; and on a non-empty batch the aggregate ErrMessageSendFailed exactly
when every item failed, success exactly when at least one item
succeeded. -/
theorem C1_send_pending_messages_aggregate (env : SenderEnv) :
    (∀ e, env.getPending = .error e →
      SendPendingMessages env = (.error (ErrMessageListFailed.withError e), [])) ∧
    (env.getPending = .ok [] → SendPendingMessages env = (.ok (), [])) ∧
    (∀ msgs, env.getPending = .ok msgs → msgs ≠ [] →
      (((SendPendingMessages env).1 = .error ErrMessageSendFailed) ↔
        (∀ m ∈ msgs, (sendMessage env m).1 ≠ .ok ())) ∧
      (((SendPendingMessages env).1 = .ok ()) ↔
        (∃ m ∈ msgs, (sendMessage env m).1 = .ok ()))) := by
  refine ⟨?_, ?_, ?_⟩
  · intro e hget
    simp [SendPendingMessages, hget]
  · intro hget
    simp [SendPendingMessages, hget]
  · intro msgs hget hne
    have hlen : msgs.length ≠ 0 := by
      simpa [List.length_eq_zero] using hne
    have hpos : 0 < msgs.length := Nat.pos_of_ne_zero hlen
    have hall := processMessages_errors_length_eq_iff env msgs
    have hex := processMessages_exists_ok_iff env msgs
    have hle := processMessages_errors_length_le env msgs
    have hout : SendPendingMessages env =
        (if 0 < (processMessages env msgs).1.length ∧
            (processMessages env msgs).1.length = msgs.length then
          (Except.error ErrMessageSendFailed, (processMessages env msgs).2)
        else (.ok (), (processMessages env msgs).2)) := by
      simp only [SendPendingMessages, hget]
      rw [if_neg hlen]
    by_cases hc : 0 < (processMessages env msgs).1.length ∧
        (processMessages env msgs).1.length = msgs.length
    · have hfail : ∀ m ∈ msgs, (sendMessage env m).1 ≠ .ok () := hall.mp hc.2
      rw [hout, if_pos hc]
      refine ⟨iff_of_true rfl hfail, iff_of_false (by simp) ?_⟩
      rintro ⟨m, hm, hok⟩
      exact hfail m hm hok
    · have hlt : (processMessages env msgs).1.length < msgs.length := by
        omega
      have hok := hex.mp hlt
      rw [hout, if_neg hc]
      refine ⟨iff_of_false (by simp) ?_, iff_of_true rfl hok⟩
      intro hfail
      obtain ⟨m, hm, hk⟩ := hok
      exact hfail m hm hk

theorem C1_send_pending_messages_aggregate_witness :
    SendPendingMessages envFetchFails =
      (.error (ErrMessageListFailed.withError ⟨7⟩), []) ∧
    SendPendingMessages envBase = (.ok (), []) ∧
    (SendPendingMessages envAllFail).1 = .error ErrMessageSendFailed := by
  refine ⟨(C1_send_pending_messages_aggregate envFetchFails).1 ⟨7⟩ rfl,
          (C1_send_pending_messages_aggregate envBase).2.1 rfl, ?_⟩
  refine ((C1_send_pending_messages_aggregate envAllFail).2.2 [msgA] rfl
    (by simp)).1.mpr ?_
  intro m hm
  rw [List.mem_singleton] at hm
  subst hm
  decide

/-! Shape lemmas for the effect trace of one item. -/

theorem sendMessage_eq_webhook_error {env : SenderEnv} {m : Message} {e : GoError}
    (hw : env.webhook m.id (sendMessageRequestOf m) = .error e) :
    sendMessage env m =
      (.error (ErrWebhookCallFailed.withError e),
       [.webhookCall (sendMessageRequestOf m)]) := by
  simp only [sendMessage]
  rw [hw]

theorem sendMessage_eq_setSent_error {env : SenderEnv} {m : Message}
    {resp : SendMessageResponse} {e : GoError}
    (hw : env.webhook m.id (sendMessageRequestOf m) = .ok resp)
    (hs : env.setSent m.id resp.messageID = .error e) :
    sendMessage env m =
      (.error (ErrMarkSentFailed.withError e),
       [.webhookCall (sendMessageRequestOf m),
        .setSentCall m.id resp.messageID]) := by
  simp only [sendMessage, hw, hs]

theorem sendMessage_eq_ok {env : SenderEnv} {m : Message}
    {resp : SendMessageResponse}
    (hw : env.webhook m.id (sendMessageRequestOf m) = .ok resp)
    (hs : env.setSent m.id resp.messageID = .ok ()) :
    sendMessage env m =
      (.ok (),
       [.webhookCall (sendMessageRequestOf m),
        .setSentCall m.id resp.messageID] ++
         (if env.cacheEnabled && env.cacheRepoPresent then
           (CacheSentMessage env resp.messageID env.now).2
         else [])) := by
  simp only [sendMessage, hw, hs]

theorem CacheSentMessage_effects_shape (env : SenderEnv) (mid : String) (t : Nat)
    (eff : Effect) (h : eff ∈ (CacheSentMessage env mid t).2) :
    ∃ k v ttl, eff = .redisSetCall k v ttl := by
  revert h
  unfold CacheSentMessage
  cases hm : env.marshal { messageID := mid, sentAt := t } with
  | error e => simp
  | ok data =>
    intro h
    simp only [List.mem_singleton] at h
    exact ⟨_, _, _, h⟩

theorem sendMessage_webhook_mem (env : SenderEnv) (m : Message) :
    Effect.webhookCall (sendMessageRequestOf m) ∈ (sendMessage env m).2 := by
  cases hw : env.webhook m.id (sendMessageRequestOf m) with
  | error e => rw [sendMessage_eq_webhook_error hw]; simp
  | ok resp =>
    cases hs : env.setSent m.id resp.messageID with
    | error e => rw [sendMessage_eq_setSent_error hw hs]; simp
    | ok u =>
      cases u
      rw [sendMessage_eq_ok hw hs]
      simp

theorem sendMessage_setSentCall_id (env : SenderEnv) (m : Message)
    (i : Nat) (mid : String)
    (h : Effect.setSentCall i mid ∈ (sendMessage env m).2) : i = m.id := by
  cases hw : env.webhook m.id (sendMessageRequestOf m) with
  | error e =>
    rw [sendMessage_eq_webhook_error hw] at h
    simp at h
  | ok resp =>
    cases hs : env.setSent m.id resp.messageID with
    | error e =>
      rw [sendMessage_eq_setSent_error hw hs] at h
      simp at h
      exact h.1
    | ok u =>
      cases u
      rw [sendMessage_eq_ok hw hs] at h
      simp only [List.mem_append, List.mem_cons, List.mem_singleton,
        List.not_mem_nil, or_false] at h
      rcases h with (h | h) | h
      · exact absurd h (by simp)
      · injection h with h1 h2
      · by_cases hc : (env.cacheEnabled && env.cacheRepoPresent) = true
        · rw [if_pos hc] at h
          exact absurd (CacheSentMessage_effects_shape env resp.messageID env.now _ h)
            (by simp)
        · rw [if_neg hc] at h
          simp at h

theorem sendMessage_no_setFailed (env : SenderEnv) (m : Message) (i : Nat) :
    Effect.setFailedCall i ∉ (sendMessage env m).2 := by
  cases hw : env.webhook m.id (sendMessageRequestOf m) with
  | error e =>
    rw [sendMessage_eq_webhook_error hw]
    simp
  | ok resp =>
    cases hs : env.setSent m.id resp.messageID with
    | error e =>
      rw [sendMessage_eq_setSent_error hw hs]
      simp
    | ok u =>
      cases u
      rw [sendMessage_eq_ok hw hs]
      intro h
      simp only [List.mem_append, List.mem_cons, List.mem_singleton,
        List.not_mem_nil, or_false] at h
      rcases h with (h | h) | h
      · exact absurd h (by simp)
      · exact absurd h (by simp)
      · by_cases hc : (env.cacheEnabled && env.cacheRepoPresent) = true
        · rw [if_pos hc] at h
          exact absurd (CacheSentMessage_effects_shape env resp.messageID env.now _ h)
            (by simp)
        · rw [if_neg hc] at h
          simp at h

/-- C2: when the transport call for an item fails, sendMessage returns the
wrapped webhook error having issued only the transport call — no
mark-as-sent and no mark-as-failed call for that item appears anywhere in
the cycle's trace, so its persisted status stays Pending and it remains
eligible for the next fetch; its failure is recorded in the cycle's
sendErrors; and every other item of the batch still gets its transport
call. -/
theorem C2_transport_failure_leaves_pending (env : SenderEnv)
    (msgs : List Message) (m : Message) (e : GoError)
    (hget : env.getPending = .ok msgs)
    (hmem : m ∈ msgs)
    (hids : (msgs.map Message.id).Nodup)
    (hw : env.webhook m.id (sendMessageRequestOf m) = .error e) :
    sendMessage env m =
      (.error (ErrWebhookCallFailed.withError e),
       [.webhookCall (sendMessageRequestOf m)]) ∧
    (∀ mid, Effect.setSentCall m.id mid ∉ (SendPendingMessages env).2) ∧
    (∀ i, Effect.setFailedCall i ∉ (SendPendingMessages env).2) ∧
    ErrWebhookCallFailed.withError e ∈ (processMessages env msgs).1 ∧
    (∀ m' ∈ msgs, Effect.webhookCall (sendMessageRequestOf m') ∈
      (SendPendingMessages env).2) := by
  have hne : msgs ≠ [] := by
    intro hcon
    rw [hcon] at hmem
    cases hmem
  have heq := sendMessage_eq_webhook_error hw
  have heffs := SendPendingMessages_effects env hget hne
  refine ⟨heq, ?_, ?_, ?_, ?_⟩
  · intro mid hcon
    rw [heffs] at hcon
    obtain ⟨m', hm', hin⟩ := (processMessages_effects_mem env msgs _).mp hcon
    have hid : m.id = m'.id := sendMessage_setSentCall_id env m' m.id mid hin
    have hmm : m = m' :=
      List.inj_on_of_nodup_map hids hmem hm' hid
    rw [← hmm, heq] at hin
    simp at hin
  · intro i hcon
    rw [heffs] at hcon
    obtain ⟨m', hm', hin⟩ := (processMessages_effects_mem env msgs _).mp hcon
    exact sendMessage_no_setFailed env m' i hin
  · exact processMessages_error_mem env hmem (by rw [heq])
  · intro m' hm'
    rw [heffs]
    exact (processMessages_effects_mem env msgs _).mpr
      ⟨m', hm', sendMessage_webhook_mem env m'⟩

theorem C2_transport_failure_leaves_pending_witness :
    sendMessage envFirstFails msgA =
      (.error (ErrWebhookCallFailed.withError ⟨3⟩),
       [.webhookCall (sendMessageRequestOf msgA)]) ∧
    Effect.setSentCall 1 "uuid-b" ∉ (SendPendingMessages envFirstFails).2 ∧
    Effect.setFailedCall 1 ∉ (SendPendingMessages envFirstFails).2 ∧
    Effect.webhookCall (sendMessageRequestOf msgB) ∈
      (SendPendingMessages envFirstFails).2 := by
  have h := C2_transport_failure_leaves_pending envFirstFails [msgA, msgB]
    msgA ⟨3⟩ rfl (by simp) (by decide) rfl
  exact ⟨h.1, h.2.1 "uuid-b", h.2.2.1 1, h.2.2.2.2 msgB (by simp)⟩

/-! The dispatcher never reads the Redis write's result: replacing the
redisSet oracle changes nothing observable. -/

theorem CacheSentMessage_effects_redisSet (env : SenderEnv)
    (r : String → String → Nat → Except GoError Unit) (mid : String) (t : Nat) :
    (CacheSentMessage { env with redisSet := r } mid t).2 =
      (CacheSentMessage env mid t).2 := by
  unfold CacheSentMessage
  cases hm : env.marshal { messageID := mid, sentAt := t } <;> simp [hm]

theorem sendMessage_redisSet_independent (env : SenderEnv)
    (r : String → String → Nat → Except GoError Unit) (m : Message) :
    sendMessage { env with redisSet := r } m = sendMessage env m := by
  cases hw : env.webhook m.id (sendMessageRequestOf m) with
  | error e =>
    rw [sendMessage_eq_webhook_error hw,
      @sendMessage_eq_webhook_error { env with redisSet := r } m e hw]
  | ok resp =>
    cases hs : env.setSent m.id resp.messageID with
    | error e =>
      rw [sendMessage_eq_setSent_error hw hs,
        @sendMessage_eq_setSent_error { env with redisSet := r } m resp e hw hs]
    | ok u =>
      cases u
      rw [sendMessage_eq_ok hw hs,
        @sendMessage_eq_ok { env with redisSet := r } m resp hw hs]
      simp only [Prod.mk.injEq, true_and]
      congr 1
      by_cases hc : (env.cacheEnabled && env.cacheRepoPresent) = true
      · rw [if_pos hc, if_pos hc]
        exact CacheSentMessage_effects_redisSet env r resp.messageID env.now
      · rw [if_neg hc, if_neg hc]

theorem processMessages_redisSet_independent (env : SenderEnv)
    (r : String → String → Nat → Except GoError Unit) (l : List Message) :
    processMessages { env with redisSet := r } l = processMessages env l := by
  induction l with
  | nil => rfl
  | cons m rest ih =>
    simp only [processMessages, ih, sendMessage_redisSet_independent env r m]

theorem SendPendingMessages_redisSet_independent (env : SenderEnv)
    (r : String → String → Nat → Except GoError Unit) :
    SendPendingMessages { env with redisSet := r } = SendPendingMessages env := by
  unfold SendPendingMessages
  simp only [processMessages_redisSet_independent env r]

/-- C9: after a successful transport call and a successful SetSent, with
the cache feature enabled and a cache repository configured, the
dispatcher issues a Redis Set under key "message:" ++ externalId with the
30-day TTL; the item's result is success, and since the Redis result is
never read, replacing the Redis collaborator (e.g. by a failing one)
changes neither the item's result nor the cycle's. -/
theorem C9_cache_write_through (env : SenderEnv) (m : Message)
    (resp : SendMessageResponse) (data : String)
    (hw : env.webhook m.id (sendMessageRequestOf m) = .ok resp)
    (hs : env.setSent m.id resp.messageID = .ok ())
    (hen : env.cacheEnabled = true)
    (hrepo : env.cacheRepoPresent = true)
    (hmar : env.marshal { messageID := resp.messageID, sentAt := env.now } =
      .ok data) :
    (sendMessage env m).1 = .ok () ∧
    Effect.redisSetCall ("message:" ++ resp.messageID) data ttl30Days ∈
      (sendMessage env m).2 ∧
    (∀ r, sendMessage { env with redisSet := r } m = sendMessage env m) ∧
    (∀ r, SendPendingMessages { env with redisSet := r } =
      SendPendingMessages env) := by
  have hcache : (CacheSentMessage env resp.messageID env.now).2 =
      [.redisSetCall ("message:" ++ resp.messageID) data ttl30Days] := by
    unfold CacheSentMessage
    rw [hmar]
  refine ⟨?_, ?_, fun r => sendMessage_redisSet_independent env r m,
    fun r => SendPendingMessages_redisSet_independent env r⟩
  · rw [sendMessage_eq_ok hw hs]
  · rw [sendMessage_eq_ok hw hs, hen, hrepo]
    simp [hcache]

theorem C9_cache_write_through_witness :
    (sendMessage envCacheOk msgA).1 = .ok () ∧
    Effect.redisSetCall ("message:" ++ "uuid-a") "uuid-a" ttl30Days ∈
      (sendMessage envCacheOk msgA).2 := by
  have h := C9_cache_write_through envCacheOk msgA
    { message := "Accepted", messageID := "uuid-a" } "uuid-a" rfl rfl rfl rfl rfl
  exact ⟨h.1, h.2.1⟩

/-- C10: the cache write is attempted only when both the transport call
and SetSent succeeded: when SetSent fails after a successful transport
call, sendMessage returns the wrapped MarkSentFailed error and the trace
holds no Redis call; and conversely any Redis call in the trace implies
both the transport call and SetSent succeeded. -/
theorem C10_cache_only_after_success (env : SenderEnv) (m : Message) :
    (∀ resp e, env.webhook m.id (sendMessageRequestOf m) = .ok resp →
      env.setSent m.id resp.messageID = .error e →
      sendMessage env m =
        (.error (ErrMarkSentFailed.withError e),
         [.webhookCall (sendMessageRequestOf m),
          .setSentCall m.id resp.messageID])) ∧
    (∀ k v t, Effect.redisSetCall k v t ∈ (sendMessage env m).2 →
      ∃ resp, env.webhook m.id (sendMessageRequestOf m) = .ok resp ∧
        env.setSent m.id resp.messageID = .ok ()) := by
  constructor
  · intro resp e hw hs
    exact sendMessage_eq_setSent_error hw hs
  · intro k v t hmem
    cases hw : env.webhook m.id (sendMessageRequestOf m) with
    | error e =>
      rw [sendMessage_eq_webhook_error hw] at hmem
      simp at hmem
    | ok resp =>
      cases hs : env.setSent m.id resp.messageID with
      | error e =>
        rw [sendMessage_eq_setSent_error hw hs] at hmem
        simp at hmem
      | ok u =>
        cases u
        exact ⟨resp, rfl, hs⟩

theorem C10_cache_only_after_success_witness :
    sendMessage envMarkFails msgA =
      (.error (ErrMarkSentFailed.withError ⟨9⟩),
       [.webhookCall (sendMessageRequestOf msgA),
        .setSentCall 1 "uuid-a"]) :=
  (C10_cache_only_after_success envMarkFails msgA).1
    { message := "Accepted", messageID := "uuid-a" } ⟨9⟩ rfl rfl

/-- C8 counterexample: updating a Pending message's status to Sent through
Update succeeds and returns a message whose status is Sent while its
MessageID and SentAt are still null — the fields and the status disagree,
so not every operation preserves the invariant. -/
theorem C8_message_invariant_counterexample :
    (Update c8Env 1 c8Req).1 = .ok { msgA with status := .sent } ∧
    (Update c8Env 1 c8Req).2 = some { msgA with status := .sent } ∧
    ¬ messageInv { msgA with status := .sent } := by
  refine ⟨rfl, rfl, ?_⟩
  decide

/-- C8 amended: Create produces a Pending message with both fields null
and SetSent persists status Sent together with both fields non-null, and
both satisfy the invariant; Update preserves the invariant whenever the
request does not change the status — but an Update that sets the status
leaves MessageID and SentAt untouched and can make them disagree (see the
counterexample). -/
theorem SetSent_written (env : MsgEnv) (i : Nat) (mid : String)
    (m₀ : Message) (hg : env.getByID i = .ok m₀) :
    (SetSent env i mid).2 =
      some { m₀ with
             status := .sent
             messageID := some mid
             sentAt := some env.now } := by
  simp only [SetSent, hg]
  split <;> rfl

theorem Update_written (env : MsgEnv) (i : Nat) (req : UpdateMessageRequest)
    (m₀ : Message) (hg : env.getByID i = .ok m₀) :
    (Update env i req).2 = some
      { m₀ with
        phoneNumber := req.phoneNumber.getD m₀.phoneNumber
        content := req.content.getD m₀.content
        status := req.status.getD m₀.status } := by
  simp only [Update, hg]
  cases hp : req.phoneNumber <;> cases hco : req.content <;>
    cases hstt : req.status <;>
      (simp only [Option.getD]
       split <;> rfl)

/-- C8 amended: Create produces a Pending message with both fields null
and SetSent persists status Sent together with both fields non-null, and
both satisfy the invariant; Update preserves the invariant whenever the
request does not change the status — but an Update that sets the status
leaves MessageID and SentAt untouched and can make them disagree (see the
counterexample). -/
theorem C8_message_invariant (env : MsgEnv) :
    (∀ req m, Create env req = .ok m →
      m.status = .pending ∧ m.messageID = none ∧ m.sentAt = none ∧
        messageInv m) ∧
    (∀ i mid w, (SetSent env i mid).2 = some w →
      w.status = .sent ∧ w.messageID = some mid ∧ w.sentAt = some env.now ∧
        messageInv w) ∧
    (∀ i req m₀ w, req.status = none → env.getByID i = .ok m₀ →
      messageInv m₀ → (Update env i req).2 = some w → messageInv w) := by
  refine ⟨?_, ?_, ?_⟩
  · intro req m hc
    simp only [Create] at hc
    cases hr : env.repoCreate
      { id := 0, phoneNumber := req.phoneNumber, content := req.content,
        status := .pending, messageID := none, sentAt := none } with
    | error e => simp [hr] at hc
    | ok assignedId =>
      simp only [hr, Except.ok.injEq] at hc
      subst hc
      exact ⟨rfl, rfl, rfl, by simp [messageInv]⟩
  · intro i mid w hc
    cases hg : env.getByID i with
    | error re => cases re <;> simp [SetSent, hg] at hc
    | ok message =>
      rw [SetSent_written env i mid message hg] at hc
      injection hc with hc
      subst hc
      exact ⟨rfl, rfl, rfl, by simp [messageInv]⟩
  · intro i req m₀ w hst hg hinv hc
    rw [Update_written env i req m₀ hg] at hc
    injection hc with hc
    subst hc
    simp only [messageInv, hst, Option.getD] at hinv ⊢
    exact hinv

theorem C8_message_invariant_witness :
    messageInv { id := 1, phoneNumber := "+905553333333", content := "Hi",
                 status := .pending, messageID := none, sentAt := none } ∧
    messageInv { msgA with
                 status := .sent
                 messageID := some "uuid-a"
                 sentAt := some 1700000000 } ∧
    messageInv { msgA with phoneNumber := "+905554444444" } := by
  refine ⟨?_, ?_, ?_⟩
  · exact ((C8_message_invariant c8Env).1
      { phoneNumber := "+905553333333", content := "Hi" } _ rfl).2.2.2
  · exact ((C8_message_invariant c8Env).2.1 1 "uuid-a"
      { msgA with
        status := .sent
        messageID := some "uuid-a"
        sentAt := some 1700000000 } rfl).2.2.2
  · exact (C8_message_invariant c8Env).2.2 1
      { phoneNumber := some "+905554444444", content := none, status := none }
      msgA { msgA with phoneNumber := "+905554444444" }
      rfl rfl (by decide) rfl

/-! Scheduler lemmas and claims. -/

theorem executeJob_isOk (o : JobOutcome) : executeJob o = .ok () := by
  cases o <;> rfl

theorem runLoop_eq (job : Nat → JobOutcome) :
    ∀ (events : List LoopEvent) (k : Nat),
      runLoop job k events = .ok (k + ticksBeforeDone events, hasDone events) := by
  intro events
  induction events with
  | nil => intro k; simp [runLoop, ticksBeforeDone, hasDone]
  | cons ev rest ih =>
    intro k
    cases ev with
    | tick =>
      have harith : (k + 1) + ticksBeforeDone rest =
          k + (ticksBeforeDone rest + 1) := by omega
      simp only [runLoop, executeJob_isOk, ih (k + 1), ticksBeforeDone,
        hasDone, harith]
    | done => simp [runLoop, ticksBeforeDone, hasDone]

theorem run_eq (job : Nat → JobOutcome) (events : List LoopEvent) :
    run job events =
      .ok { invocations := 1 + ticksBeforeDone events,
            finished := hasDone events, stoppedClosed := hasDone events } := by
  simp only [run, executeJob_isOk, runLoop_eq]

/-- C4: the run loop invokes the job once immediately on entry, then once
per served tick; on the internal cancellation it exits and the deferred
close of the stopped channel executes; and no fault ever escapes (the
result is always .ok). -/
theorem C4_run_loop_invocations (job : Nat → JobOutcome)
    (events : List LoopEvent) :
    run job events =
      .ok { invocations := 1 + ticksBeforeDone events,
            finished := hasDone events, stoppedClosed := hasDone events } :=
  run_eq job events

/-- C5: a job invocation that raises a runtime fault is caught at the
executeJob boundary (it returns normally), and the loop behaves exactly as
with a never-faulting job: it does not terminate early and all subsequent
scheduled invocations still occur. -/
theorem C5_panic_contained (job : Nat → JobOutcome) (events : List LoopEvent)
    (k v : Nat) (hp : job k = .panics v) :
    executeJob (job k) = .ok () ∧
    run job events = run (fun _ => .ok) events ∧
    run job events =
      .ok { invocations := 1 + ticksBeforeDone events,
            finished := hasDone events, stoppedClosed := hasDone events } := by
  refine ⟨executeJob_isOk _, ?_, run_eq job events⟩
  rw [run_eq job events, run_eq (fun _ => .ok) events]

theorem C5_panic_contained_witness :
    panickyJob 1 = .panics 7 ∧
    run panickyJob [.tick, .tick, .done] =
      .ok { invocations := 3, finished := true, stoppedClosed := true } := by
  have h := C5_panic_contained panickyJob [.tick, .tick, .done] 1 7 rfl
  refine ⟨rfl, ?_⟩
  rw [h.2.1]
  decide

/-- C7: the lifecycle contract of New / Start / Stop: each error is
returned exactly on its precondition violation, and the failing self-loop
calls leave the state unchanged. -/
theorem C7_scheduler_lifecycle_contract :
    (∀ jp i,
      (New jp i = .error ErrInvalidInterval ↔ i ≤ 0) ∧
      (New jp i = .error ErrNilJob ↔ 0 < i ∧ jp = false) ∧
      (0 < i → jp = true →
        New jp i = .ok { jobPresent := jp, interval := i, running := false,
                         tickerArmed := false, cancelIssued := false })) ∧
    (∀ s, ((Start s).1 = .error ErrAlreadyRunning ↔ s.running = true) ∧
      (s.running = true → (Start s).2 = s) ∧
      (s.running = false →
        (Start s).1 = .ok () ∧ (Start s).2.running = true)) ∧
    (∀ s w,
      ((Stop s w).1 = .error (.lifecycle ErrNotRunning) ↔ s.running = false) ∧
      (s.running = false → (Stop s w).2 = s)) := by
  refine ⟨?_, ?_, ?_⟩
  · intro jp i
    by_cases hi : i ≤ 0
    · have hnew : New jp i = .error ErrInvalidInterval := by
        simp [New, hi]
      refine ⟨iff_of_true hnew hi, ?_, ?_⟩
      · rw [hnew]
        refine iff_of_false ?_ ?_
        · intro h
          injection h with h
          exact absurd h (by decide)
        · rintro ⟨h0, _⟩
          omega
      · intro h0 _
        omega
    · have hi0 : 0 < i := by omega
      by_cases hj : jp = false
      · have hnew : New jp i = .error ErrNilJob := by
          simp [New, hi, hj]
        refine ⟨?_, iff_of_true hnew ⟨hi0, hj⟩, ?_⟩
        · rw [hnew]
          refine iff_of_false ?_ hi
          intro h
          injection h with h
          exact absurd h (by decide)
        · intro _ hjt
          rw [hjt] at hj
          cases hj
      · have hjt : jp = true := by
          cases jp
          · exact absurd rfl hj
          · rfl
        have hnew : New jp i =
            .ok { jobPresent := jp, interval := i, running := false,
                  tickerArmed := false, cancelIssued := false } := by
          simp [New, hi, hj]
        refine ⟨?_, ?_, fun _ _ => hnew⟩
        · rw [hnew]
          exact iff_of_false (by simp) hi
        · rw [hnew]
          refine iff_of_false (by simp) ?_
          rintro ⟨_, hjf⟩
          rw [hjf] at hjt
          cases hjt
  · intro s
    cases hrb : s.running with
    | true =>
      have h1 : Start s = (.error ErrAlreadyRunning, s) := by
        simp [Start, hrb]
      rw [h1]
      refine ⟨iff_of_true rfl rfl, fun _ => rfl, ?_⟩
      intro hf
      cases hf
    | false =>
      have h1 : Start s = (.ok (), { s with
          running := true
          tickerArmed := true
          cancelIssued := false }) := by
        simp [Start, hrb]
      rw [h1]
      refine ⟨iff_of_false (by simp) (by simp), ?_, ?_⟩
      · intro hf
        cases hf
      · intro _
        exact ⟨rfl, rfl⟩
  · intro s w
    cases hrb : s.running with
    | false =>
      have h1 : Stop s w = (.error (.lifecycle ErrNotRunning), s) := by
        simp [Stop, hrb]
      rw [h1]
      exact ⟨iff_of_true rfl rfl, fun _ => rfl⟩
    | true =>
      constructor
      · refine iff_of_false ?_ (by simp)
        simp only [Stop, hrb]
        cases w <;> simp
      · intro hf
        cases hf

theorem C7_scheduler_lifecycle_contract_witness :
    New false 5 = .error ErrNilJob ∧
    New true 0 = .error ErrInvalidInterval ∧
    (Start { jobPresent := true, interval := 5, running := true,
             tickerArmed := true, cancelIssued := false }).1 =
      .error ErrAlreadyRunning ∧
    (Stop { jobPresent := true, interval := 5, running := false,
            tickerArmed := false, cancelIssued := false } .timeout).1 =
      .error (.lifecycle ErrNotRunning) := by
  refine ⟨?_, ?_, ?_, ?_⟩
  · exact (C7_scheduler_lifecycle_contract.1 false 5).2.1.mpr ⟨by decide, rfl⟩
  · exact (C7_scheduler_lifecycle_contract.1 true 0).1.mpr (by decide)
  · exact (C7_scheduler_lifecycle_contract.2.1 _).1.mpr rfl
  · exact (C7_scheduler_lifecycle_contract.2.2 _ .timeout).1.mpr rfl

/-- C3 counterexample: when Stop's wait resolves because the caller's
context is cancelled, Stop returns that context's error but does NOT set
the state to not-running — the running flag stays true, contradicting
"on every branch on which this wait resolves ... the state is set to
not-running". -/
theorem C3_stop_counterexample :
    runningState.running = true ∧
    (Stop runningState (.callerCanceled ⟨5⟩)).1 = .error (.context ⟨5⟩) ∧
    (Stop runningState (.callerCanceled ⟨5⟩)).2.running = true := by
  decide

/-- C3 amended: Stop on a running scheduler cancels the internal context
and disarms the ticker on every branch, then: on the loop-completion and
timeout branches it returns success and sets the state to not-running; on
the caller-cancellation branch it returns the context's error and leaves
the state running. -/
theorem C3_stop_branches (s : SchedulerState) (w : StopWait)
    (hr : s.running = true) :
    (Stop s w).2.cancelIssued = true ∧
    (Stop s w).2.tickerArmed = false ∧
    (w = .loopStopped →
      Stop s w = (.ok (), { s with
        cancelIssued := true
        tickerArmed := false
        running := false })) ∧
    (∀ e, w = .callerCanceled e →
      Stop s w = (.error (.context e),
        { s with
          cancelIssued := true
          tickerArmed := false })) ∧
    (w = .timeout →
      Stop s w = (.ok (), { s with
        cancelIssued := true
        tickerArmed := false
        running := false })) := by
  cases w <;> simp [Stop, hr]

theorem C3_stop_branches_witness :
    Stop runningState .timeout =
      (.ok (), { runningState with
        cancelIssued := true
        tickerArmed := false
        running := false }) :=
  (C3_stop_branches runningState .timeout rfl).2.2.2.2 rfl

/-- C6 counterexample: on the timeout branch Stop returns success, yet in
this well-formed scenario one more job invocation occurs after Stop's wait
resolved — Stop returning nil does not imply no further invocations. -/
theorem C6_stop_counterexample :
    c6Timeout.wf ∧ c6Timeout.state.running = true ∧
    (Stop c6Timeout.state c6Timeout.wait).1 = .ok () ∧
    invocationsAfterStop c6Timeout = 1 := by
  refine ⟨by decide, rfl, rfl, rfl⟩

/-- C6 amended: Stop on a running scheduler returns success exactly on the
loop-completion and timeout branches; when it succeeds via the
loop-completion branch (the loop has closed the stopped channel), no
further invocation occurs; the timeout branch offers no such guarantee
(see the counterexample). -/
theorem C6_stop_success_no_invocations (sc : StopScenario)
    (hwf : sc.wf) (hr : sc.state.running = true) :
    ((Stop sc.state sc.wait).1 = .ok () ↔
      (sc.wait = .loopStopped ∨ sc.wait = .timeout)) ∧
    (sc.wait = .loopStopped →
      (Stop sc.state sc.wait).1 = .ok () ∧ invocationsAfterStop sc = 0) := by
  constructor
  · cases hw : sc.wait <;> simp [Stop, hr]
  · intro hls
    refine ⟨by rw [hls]; simp [Stop, hr], ?_⟩
    unfold invocationsAfterStop
    rw [hwf.1 hls]
    rfl

theorem C6_stop_success_no_invocations_witness :
    (Stop c6Stopped.state c6Stopped.wait).1 = .ok () ∧
    invocationsAfterStop c6Stopped = 0 :=
  (C6_stop_success_no_invocations c6Stopped (by decide) rfl).2 rfl

end MessageService
